import Mathlib

/-!
Verification of the PayLagh Slack finance bot (`src/main.py`).

The bot tracks club member balances loaded from a spreadsheet and can
schedule recurring payment reminders for debtors.  This file gives a
shallow embedding of the data model and of the handlers the claims are
about, translated directly from `main.py`:

* currency normalization and row parsing (`process_details`,
  `get_people_data`, lines 98-152);
* the balance classifier (`get_all_debtors` / `get_all_prepaid`,
  lines 155-179);
* the `/owe` handler (`owe`, lines 199-270);
* the reminder subsystem: the four module-level registries
  (`PING_EXCLUDED_LIST`, `PING_TIMES_PER_PLAYER`, `PING_LIST`,
  `REMINDERS`, lines 43-47), `build_reminders` (lines 404-422) and the
  `/ping`, `/ping_add`, `/ping_remove`, `/ping_adjust_time` handlers
  (lines 427-616).

Modelling conventions:
* Python currency amounts (`float`) are modelled as exact rationals `Rat`;
  every balance appearing in the claims is a small decimal so this is
  faithful for all sign comparisons and for the decimal parses involved.
* A Python `dict` is modelled as an association list whose assignment
  operator (`dictInsert`) overwrites the first entry with the same key
  and otherwise appends, so iteration order and key uniqueness match
  CPython semantics.
* The external Slack calls are modelled by their data: the roster
  (`client.users_list()`) is a list of `SlackPerson`, and the reminder
  creation call (`user_client.reminders_add`, line 482) is an oracle
  `create : String → Except Unit Nat` returning an opaque handle or
  raising, exactly where the Python call can raise; an uncaught raise is
  modelled by the `failed` flag together with the partially mutated
  state, matching an exception propagating out of the Flask handler.
* Python's `str()` rendering of a float is abstracted by an exact
  rational rendering `ratStr`; no claim depends on the digits produced.
-/

/-- Lookup in an association list by key, first match wins (Python
`dict.get` on our dict model, and also `DataFrame.loc[...].iloc[0]`
style first-row lookup). -/
def lookup {α : Type} (k : String) : List (String × α) → Option α
  | [] => none
  | (k2, v) :: rest => if k = k2 then some v else lookup k rest

/-- Python `dict` assignment `d[k] = v`: overwrite the first entry with
key `k` if present, otherwise append the new binding at the end. -/
def dictInsert {α : Type} (k : String) (v : α) : List (String × α) → List (String × α)
  | [] => [(k, v)]
  | (k2, v2) :: rest => if k2 = k then (k, v) :: rest else (k2, v2) :: dictInsert k v rest

/-- Keys of the association list are pairwise distinct (the defining
property of a Python `dict`). -/
def NoDupKeys {α : Type} (d : List (String × α)) : Prop :=
  d.Pairwise (fun a b => a.1 ≠ b.1)

/-- Python `==` between a `str` and a `list` value: cross-type equality
in Python is always `False`.  `main.py` lines 576 and 605 compare the
actor's name (a `str`) with the `TREASURERS` list. -/
def pyStrEqStrList (s : String) (l : List String) : Bool :=
  false

/-- `main.py` line 50: the `Person` dataclass. -/
structure Person where
  name : String
  current_balance : Rat
  total_debit : Rat
  total_paid : Rat
  deriving DecidableEq, Repr

/-- `main.py` line 58: the `Reminder` dataclass. -/
structure Reminder where
  name : String
  text : String
  id : String
  recurrence : String
  deriving DecidableEq, Repr

/-- One member of `client.users_list().get("members")`: only the
`real_name` and `id` fields are read by `main.py`. -/
structure SlackPerson where
  real_name : String
  id : String
  deriving DecidableEq, Repr

/-- One spreadsheet row: the four columns documented at
`main.py` lines 81-87, all carried as formatted strings. -/
structure Row where
  name : String
  balance : String
  debit : String
  paid : String
  deriving DecidableEq, Repr

/-- `main.py` line 31. -/
def TEAM : String := "Ranelagh"

/-- `main.py` line 34. -/
def TREASURERS : List String := ["Noah Coyne-Tyrrell", "Louis Stewart", "Daniel Collins"]

/-- `main.py` line 35. -/
def TREASURER : String := "Louis Stewart"

/-- `main.py` line 47. -/
def DEFAULT_TIME : String := "next Monday at 15:00"

/-- Python `str(TREASURERS)`, as interpolated by the f-strings in
`main.py` (e.g. lines 263, 510-511). -/
def treasurersRepr : String :=
  "[\x27Noah Coyne-Tyrrell\x27, \x27Louis Stewart\x27, \x27Daniel Collins\x27]"

/-- Decimal digits to a natural number (helper for the `float` model). -/
def natOfDigits (l : List Char) : Nat :=
  l.foldl (fun n c => 10 * n + (c.toNat - 48)) 0

/-- Model of Python's `float(s)` builtin on plain decimal notation
(optional sign, integer digits, optional fractional part), returning
`none` exactly where `float` raises `ValueError`.  Exponent, infinity
and NaN spellings never occur in this code base's inputs. -/
def pyFloat (cs : List Char) : Option Rat :=
  let signRest : Rat × List Char :=
    match cs with
    | '-' :: rest => (-1, rest)
    | '+' :: rest => (1, rest)
    | _ => (1, cs)
  let sign := signRest.1
  let body := signRest.2
  let ip := body.takeWhile Char.isDigit
  let rest := body.dropWhile Char.isDigit
  match rest with
  | [] => if ip.isEmpty then none else some (sign * (natOfDigits ip : Rat))
  | '.' :: fr =>
    let fp := fr.takeWhile Char.isDigit
    let tail := fr.dropWhile Char.isDigit
    if tail.isEmpty then
      if ip.isEmpty && fp.isEmpty then none
      else some (sign * ((natOfDigits ip : Rat) + (natOfDigits fp : Rat) / (10 : Rat) ^ fp.length))
    else none
  | _ => none

/-- `main.py` line 134 and friends:
`float(x.replace("€", "").replace(",", ""))`.  Removing every occurrence
of a one-character pattern is a character filter. -/
def normalize_currency (s : String) : Option Rat :=
  pyFloat ((s.data.filter (fun c => c != '€')).filter (fun c => c != ','))

/-- `main.py` lines 98-138, `process_details`: turn one name plus the
CSV data into a `Person`.  A missing row yields the zero-balance soft
miss (lines 114-117); a malformed currency field makes `float` raise
`ValueError`, modelled as `Except.error ()`. -/
def process_details (name : String) (data : List Row) : Except Unit Person :=
  match data.find? (fun r => r.name == name) with
  | none => Except.ok ⟨name, 0, 0, 0⟩
  | some r =>
    match normalize_currency r.balance, normalize_currency r.debit, normalize_currency r.paid with
    | some b, some d, some p => Except.ok ⟨name, b, d, p⟩
    | _, _, _ => Except.error ()

/-- The loop body of `get_people_data` (`main.py` lines 149-151):
iterate over the name column of the (already trimmed) data, calling
`process_details` for each; a raise propagates and aborts the loop. -/
def peopleLoop (rows : List Row) : List Row → Except Unit (List Person)
  | [] => Except.ok []
  | r :: rest =>
    match process_details r.name rows with
    | Except.error e => Except.error e
    | Except.ok p =>
      match peopleLoop rows rest with
      | Except.error e => Except.error e
      | Except.ok ps => Except.ok (p :: ps)

/-- `main.py` lines 142-152, `get_people_data`: drop the three summary
footer rows (`[:-3]`, line 148) and build a `Person` for every
remaining row name. -/
def get_people_data (spreadsheet : List Row) : Except Unit (List Person) :=
  peopleLoop (spreadsheet.take (spreadsheet.length - 3))
    (spreadsheet.take (spreadsheet.length - 3))

/-- `main.py` lines 155-166: filter the people with strictly negative
balance, preserving order. -/
def get_all_debtors : List Person → List Person
  | [] => []
  | p :: rest =>
    if p.current_balance < 0 then p :: get_all_debtors rest else get_all_debtors rest

/-- `main.py` lines 169-179: filter the people with strictly positive
balance, preserving order. -/
def get_all_prepaid : List Person → List Person
  | [] => []
  | p :: rest =>
    if p.current_balance > 0 then p :: get_all_prepaid rest else get_all_prepaid rest

/-- Digits of a natural number, most significant first; the extra fuel
argument makes the recursion structural. -/
def natDigits : Nat → Nat → List Char
  | 0, _ => []
  | fuel + 1, n =>
    if n < 10 then [Char.ofNat (48 + n)]
    else natDigits fuel (n / 10) ++ [Char.ofNat (48 + n % 10)]

/-- Decimal rendering of a natural number. -/
def natToString (n : Nat) : String :=
  ⟨natDigits (n + 1) n⟩

/-- Exact rendering of a rational: stands in for Python's `str` on the
float balances interpolated into reply messages.  No claim depends on
the digits produced, only on the surrounding fixed text. -/
def ratStr (q : Rat) : String :=
  (if q.num < 0 then "-" else "") ++ natToString q.num.natAbs ++
    (if q.den = 1 then "" else "/" ++ natToString q.den)

/-- Result of the `/owe` handler: the reply text, plus a flag recording
whether the `hits != 0` error branch (`main.py` line 263) was taken. -/
structure OweResult where
  text : String
  error_branch : Bool
  deriving DecidableEq, Repr

/-- `main.py` lines 199-270, `owe`: the business logic of the balance
query, as a function of the actor's real name and the loaded people.
`hits` is initialized to `0` (line 223) and never incremented; `flagged`
starts `True` (line 220) and is set `False` on the treasurer branch and
on each hit branch, exactly as in the source. -/
def owe_response (user_real_name : String) (people : List Person) : OweResult :=
  let hits : Nat := 0
  let debtors := get_all_debtors people
  let prepaid := get_all_prepaid people
  if user_real_name ∈ TREASURERS then
    let response :=
      (debtors.foldl
        (fun acc u => acc ++ "*" ++ u.name ++ "* needs to pay *" ++
          ratStr |u.current_balance| ++ "* Euros\n") "") ++ "\n" ++
      (prepaid.foldl
        (fun acc u => acc ++ "*" ++ u.name ++ "* paid *" ++
          ratStr u.current_balance ++ "* Euros in advance\n") "")
    ⟨response ++ "Use the _/paywhere_ command to find out how to pay.", false⟩
  else
    let debt := debtors.filter (fun u => u.name == user_real_name)
    let prepaid2 := prepaid.filter (fun u => u.name == user_real_name)
    match debt with
    | u :: _ =>
      ⟨"*" ++ u.name ++ "* needs to pay *" ++ ratStr |u.current_balance| ++
        "* Euros\n" ++ "Use the _/paywhere_ command to find out how to pay.", false⟩
    | [] =>
      match prepaid2 with
      | u :: _ =>
        ⟨"*" ++ u.name ++ "* paid *" ++ ratStr u.current_balance ++
          "* Euros in advance\n" ++ "Use the _/paywhere_ command to find out how to pay.", false⟩
      | [] =>
        if hits = 0 then
          ⟨"The user *" ++ user_real_name ++ "* owes " ++ TEAM ++ " *no* money.", false⟩
        else
          ⟨"The search you performed went wrong, please contact " ++ treasurersRepr ++
            " for troubleshooting", true⟩

/-- Per-debtor terminal state of one scheduling run, after the branch
structure of `main.py` lines 476-490: the `not in PING_EXCLUDED_LIST`
guard, then the `REMINDERS.get(...) is None` guard. -/
inductive Outcome where
  | created
  | skippedExcluded
  | skippedAlreadyActive
  deriving DecidableEq, Repr

/-- The four module-level registries of `main.py` lines 43-46, gathered
into one state record:
`PING_EXCLUDED_LIST` (a `list` of names), `PING_TIMES_PER_PLAYER`
(a `dict` name → recurrence string), `PING_LIST` (a `list` of
(debtor, slack member) pairs) and `REMINDERS` (a `dict` name → opaque
reminder handle, the handle modelled as `Nat`). -/
structure RegState where
  PING_EXCLUDED_LIST : List String
  PING_TIMES_PER_PLAYER : List (String × String)
  PING_LIST : List (Person × SlackPerson)
  REMINDERS : List (String × Nat)
  deriving DecidableEq, Repr

/-- The registries at process start (`main.py` lines 43-46):
`PING_TIMES_PER_PLAYER` starts with the treasurer's override. -/
def initState : RegState :=
  ⟨[], [(TREASURER, "next Monday at 14:00")], [], []⟩

/-- `main.py` lines 462-470: correlate each debtor with the first slack
roster member whose `real_name` equals the debtor's name; unmatched
debtors are collected as unreachable, both in input order. -/
def resolveDebtors : List Person → List SlackPerson → List (Person × SlackPerson) × List Person
  | [], _ => ([], [])
  | p :: rest, roster =>
    let r := resolveDebtors rest roster
    match roster.find? (fun sp => sp.real_name == p.name) with
    | some sp => ((p, sp) :: r.1, r.2)
    | none => (r.1, p :: r.2)

/-- The reminder message built at `main.py` lines 414-415. -/
def reminder_text (debtor : Person) : String :=
  "You owe " ++ TEAM ++ " " ++ ratStr debtor.current_balance ++ " Euros. \n" ++
    "Please use /paywhere to pay or contact " ++ treasurersRepr

/-- `main.py` lines 404-422, `build_reminders`: walk `PING_LIST`,
persisting `DEFAULT_TIME` into `PING_TIMES_PER_PLAYER` for any debtor
with no override (lines 416-418) and building one `Reminder` per entry.
Returns the reminders together with the updated times dict. -/
def build_reminders : List (Person × SlackPerson) → List (String × String) →
    List Reminder × List (String × String)
  | [], times => ([], times)
  | (debtor, person) :: rest, times =>
    let times2 :=
      if (lookup debtor.name times).isNone then dictInsert debtor.name DEFAULT_TIME times
      else times
    -- line 419: the lookup cannot miss, the previous line just ensured the key
    let recurrence := (lookup debtor.name times2).getD DEFAULT_TIME
    let r := build_reminders rest times2
    (⟨debtor.name, reminder_text debtor, person.id, recurrence⟩ :: r.1, r.2)

/-- Result of the reminder-processing loop (`main.py` lines 476-490):
the updated `REMINDERS` dict, the `players_being_reminded` and
`players_already_reminded` accumulators, the names for which the
external `reminders_add` call was issued, the per-reminder outcome
trace, and whether an uncaught exception aborted the loop. -/
structure ProcResult where
  REMINDERS : List (String × Nat)
  players_being_reminded : List Reminder
  players_already_reminded : List String
  issued : List String
  outcomes : List (String × Outcome)
  failed : Bool
  deriving Repr

/-- `main.py` lines 476-490: for each reminder, skip it silently when
the name is excluded; otherwise create and register it when no active
reminder exists, else record it as already reminded.  A raise from
`reminders_add` (modelled by `create` returning `Except.error`)
propagates: the rest of the list is not processed and the partially
updated `REMINDERS` dict is kept, as the Python globals would be. -/
def processReminders (create : String → Except Unit Nat) (excl : List String) :
    List Reminder → List (String × Nat) → ProcResult
  | [], R => ⟨R, [], [], [], [], false⟩
  | rem :: rest, R =>
    if rem.name ∈ excl then
      let r := processReminders create excl rest R
      ⟨r.REMINDERS, r.players_being_reminded, r.players_already_reminded, r.issued,
        (rem.name, Outcome.skippedExcluded) :: r.outcomes, r.failed⟩
    else if (lookup rem.name R).isNone then
      match create rem.name with
      | Except.error _ => ⟨R, [], [], [rem.name], [], true⟩
      | Except.ok h =>
        let r := processReminders create excl rest (dictInsert rem.name h R)
        ⟨r.REMINDERS, rem :: r.players_being_reminded, r.players_already_reminded,
          rem.name :: r.issued, (rem.name, Outcome.created) :: r.outcomes, r.failed⟩
    else
      let r := processReminders create excl rest R
      ⟨r.REMINDERS, r.players_being_reminded, rem.name :: r.players_already_reminded,
        r.issued, (rem.name, Outcome.skippedAlreadyActive) :: r.outcomes, r.failed⟩

/-- Result of one `/ping` invocation: the registry state after the call
plus the run report data of `main.py` lines 447-449 and the
instrumentation carried over from `ProcResult`. -/
structure RunResult where
  state : RegState
  players_being_reminded : List Reminder
  players_already_reminded : List String
  players_unreachable : List Person
  issued : List String
  outcomes : List (String × Outcome)
  failed : Bool
  deriving Repr

/-- `main.py` lines 427-520, `ping_players`: the `/ping` handler.
`create` is the external `reminders_add` call, `people` the loaded
ledger, `roster` the slack member list.  Toggle `"on"` resolves debtors,
appends them to `PING_LIST`, rebuilds reminders over the whole list and
runs the processing loop; toggle `"off"` clears all four registries
(lines 503-508); any other toggle, or a non-treasurer actor, leaves the
state untouched. -/
def ping_players (create : String → Except Unit Nat) (user_real_name toggle : String)
    (people : List Person) (roster : List SlackPerson) (st : RegState) : RunResult :=
  if user_real_name ∈ TREASURERS then
    if toggle = "on" then
      let rp := resolveDebtors (get_all_debtors people) roster
      let PL := st.PING_LIST ++ rp.1
      let br := build_reminders PL st.PING_TIMES_PER_PLAYER
      let p := processReminders create st.PING_EXCLUDED_LIST br.1 st.REMINDERS
      ⟨⟨st.PING_EXCLUDED_LIST, br.2, PL, p.REMINDERS⟩, p.players_being_reminded,
        p.players_already_reminded, rp.2, p.issued, p.outcomes, p.failed⟩
    else if toggle = "off" then
      ⟨⟨[], [], [], []⟩, [], [], [], [], [], false⟩
    else
      ⟨st, [], [], [], [], [], false⟩
  else
    ⟨st, [], [], [], [], [], false⟩

/-- Spec name for presence in the active-reminder map:
`REMINDERS.get(name) is not None` (`main.py` line 480 is the negation). -/
def hasActive (st : RegState) (name : String) : Bool :=
  (lookup name st.REMINDERS).isSome

/-- The fixed denial message of `main.py` lines 510-511, 551-552,
583-584 and 612-613. -/
def denial_text : String :=
  "This command can only be run by the " ++ TEAM ++ " TREASURERS, " ++
    "please contact *" ++ treasurersRepr ++ "* if you think you should be able to run it."

/-- `main.py` lines 558-587, `ping_remove_players`: the `/ping_remove`
handler.  NOTE the guard on line 576 compares the actor's name (`str`)
with the `TREASURERS` list using `==`, which in Python is always
`False`; this is embedded faithfully via `pyStrEqStrList`. -/
def ping_remove_players (user_real_name person_to_skip : String)
    (roster : List SlackPerson) (st : RegState) : RegState × String :=
  if pyStrEqStrList user_real_name TREASURERS then
    ({ st with
        PING_EXCLUDED_LIST :=
          roster.foldl
            (fun e sp => if sp.real_name == person_to_skip then e ++ [person_to_skip] else e)
            st.PING_EXCLUDED_LIST },
      "Skipping " ++ person_to_skip ++ " from future reminders \n")
  else
    (st, denial_text)

/-- `main.py` lines 590-616, `ping_adjust_time`: the `/ping_adjust_time`
handler.  Same always-`False` guard as `ping_remove_players` (line 605).
Inside the guarded block, `info.split(",")` must produce exactly two
parts or unpacking raises, and the reply interpolation on line 610 can
raise `KeyError`; both raises are modelled as `Except.error`. -/
def ping_adjust_time (user_real_name info : String)
    (roster : List SlackPerson) (st : RegState) : RegState × Except Unit String :=
  if pyStrEqStrList user_real_name TREASURERS then
    match info.splitOn "," with
    | [name, time] =>
      let slack_people := roster.map (fun p => p.real_name)
      let times :=
        if name ∈ slack_people then dictInsert name time st.PING_TIMES_PER_PLAYER
        else st.PING_TIMES_PER_PLAYER
      match lookup name times with
      | some t =>
        ({ st with PING_TIMES_PER_PLAYER := times },
          Except.ok ("adjusted reminders to *" ++ t ++ "* for _" ++ name ++ "_."))
      | none => ({ st with PING_TIMES_PER_PLAYER := times }, Except.error ())
    | _ => (st, Except.error ())
  else
    (st, Except.ok denial_text)

/-- `main.py` lines 523-555, `ping_add_players`: the `/ping_add`
handler.  Its guard correctly uses `in TREASURERS` (line 542); for each
roster member matching the target the exclusion list is rebuilt without
the target name (lines 546-548). -/
def ping_add_players (user_real_name person_to_add : String)
    (roster : List SlackPerson) (st : RegState) : RegState × String :=
  if user_real_name ∈ TREASURERS then
    ({ st with
        PING_EXCLUDED_LIST :=
          roster.foldl
            (fun e sp =>
              if sp.real_name == person_to_add then e.filter (fun p => p != person_to_add)
              else e)
            st.PING_EXCLUDED_LIST },
      "Adding " ++ person_to_add ++ " to the remind list.\n")
  else
    (st, denial_text)

/-- One administrative command against the registries, for stating the
invariant over arbitrary interleavings of the handlers. -/
inductive Op where
  | ping (create : String → Except Unit Nat) (actor toggle : String)
      (people : List Person) (roster : List SlackPerson)
  | remove (actor target : String) (roster : List SlackPerson)
  | adjust (actor info : String) (roster : List SlackPerson)
  | add (actor target : String) (roster : List SlackPerson)

/-- Apply one command to the registry state, keeping only the state. -/
def applyOp (st : RegState) : Op → RegState
  | Op.ping c a t ppl ros => (ping_players c a t ppl ros st).state
  | Op.remove a tgt ros => (ping_remove_players a tgt ros st).1
  | Op.adjust a info ros => (ping_adjust_time a info ros st).1
  | Op.add a tgt ros => (ping_add_players a tgt ros st).1

/-- Run a sequence of administrative commands from process start. -/
def runOps (ops : List Op) : RegState :=
  ops.foldl applyOp initState

/-- The reminders list a toggle-on invocation processes (the value of
`build_reminders()` at `main.py` line 473 after the `PING_LIST`
extension of lines 462-468). -/
def onReminders (people : List Person) (roster : List SlackPerson) (st : RegState) :
    List Reminder :=
  (build_reminders (st.PING_LIST ++ (resolveDebtors (get_all_debtors people) roster).1)
    st.PING_TIMES_PER_PLAYER).1

/-- The processing-loop result of a toggle-on invocation
(`main.py` lines 476-490). -/
def onProc (create : String → Except Unit Nat) (people : List Person)
    (roster : List SlackPerson) (st : RegState) : ProcResult :=
  processReminders create st.PING_EXCLUDED_LIST (onReminders people roster st) st.REMINDERS

theorem lookup_dictInsert_self {α : Type} (k : String) (v : α) (d : List (String × α)) :
    lookup k (dictInsert k v d) = some v := by
  induction d with
  | nil => simp [dictInsert, lookup]
  | cons kv rest ih =>
    by_cases h : kv.1 = k
    · simp [dictInsert, h, lookup]
    · have h3 : ¬k = kv.1 := fun h2 => h h2.symm
      simp [dictInsert, h, lookup, h3, ih]

theorem lookup_dictInsert_ne {α : Type} {a k : String} (v : α) (d : List (String × α))
    (h : a ≠ k) : lookup a (dictInsert k v d) = lookup a d := by
  induction d with
  | nil => simp [dictInsert, lookup, h]
  | cons kv rest ih =>
    by_cases h2 : kv.1 = k
    · by_cases h3 : a = kv.1
      · exact absurd (h3.trans h2) h
      · simp [dictInsert, h2, lookup, h, h3, h2 ▸ h3]
    · by_cases h3 : a = kv.1
      · simp [dictInsert, h2, lookup, h3]
      · simp [dictInsert, h2, lookup, h3, ih]

theorem mem_keys_dictInsert {α : Type} {a k : String} {v : α} {d : List (String × α)}
    (h : a ∈ (dictInsert k v d).map Prod.fst) : a = k ∨ a ∈ d.map Prod.fst := by
  induction d with
  | nil => simpa [dictInsert] using h
  | cons kv rest ih =>
    by_cases h2 : kv.1 = k
    · simp only [dictInsert, h2, if_pos] at h
      rcases List.mem_map.mp h with ⟨b, hb, he⟩
      rcases List.mem_cons.mp hb with hb | hb
      · left; rw [← he, hb]
      · right; rw [← he]; exact List.mem_map_of_mem _ (List.mem_cons_of_mem _ hb)
    · simp only [dictInsert, h2, if_neg, not_false_iff, List.map_cons, List.mem_cons] at h
      rcases h with h | h
      · right; rw [h]; simp
      · rcases ih h with h | h
        · exact Or.inl h
        · right; simp [h]

theorem noDupKeys_dictInsert {α : Type} {k : String} {v : α} {d : List (String × α)}
    (h : NoDupKeys d) : NoDupKeys (dictInsert k v d) := by
  induction d with
  | nil => simp [dictInsert, NoDupKeys]
  | cons kv rest ih =>
    rcases List.pairwise_cons.mp h with ⟨h1, h2⟩
    by_cases hk : kv.1 = k
    · simp only [dictInsert, hk, if_pos]
      exact List.pairwise_cons.mpr ⟨fun b hb => hk ▸ h1 b hb, h2⟩
    · simp only [dictInsert, hk, if_neg, not_false_iff]
      refine List.pairwise_cons.mpr ⟨fun b hb => ?_, ih h2⟩
      rcases mem_keys_dictInsert (List.mem_map_of_mem Prod.fst hb) with he | he
      · rw [he]; exact hk
      · rcases List.mem_map.mp he with ⟨c, hc, hce⟩
        rw [← hce]; exact h1 c hc

theorem proc_noDupKeys (c : String → Except Unit Nat) (e : List String)
    (rems : List Reminder) :
    ∀ R : List (String × Nat), NoDupKeys R →
      NoDupKeys (processReminders c e rems R).REMINDERS := by
  induction rems with
  | nil => intro R h; simpa [processReminders] using h
  | cons rm rest ih =>
    intro R h
    by_cases h1 : rm.name ∈ e
    · simpa [processReminders, h1] using ih R h
    · by_cases h2 : (lookup rm.name R).isNone
      · rcases hc : c rm.name with u | m
        · simpa [processReminders, h1, h2, hc] using h
        · simpa [processReminders, h1, h2, hc] using ih _ (noDupKeys_dictInsert h)
      · simpa [processReminders, h1, h2] using ih R h

theorem proc_lookup_mono (c : String → Except Unit Nat) (e : List String)
    (rems : List Reminder) :
    ∀ (R : List (String × Nat)) (n : String) (h : Nat), lookup n R = some h →
      lookup n (processReminders c e rems R).REMINDERS = some h := by
  induction rems with
  | nil => intro R n h hl; simpa [processReminders] using hl
  | cons rm rest ih =>
    intro R n h hl
    by_cases h1 : rm.name ∈ e
    · simpa [processReminders, h1] using ih R n h hl
    · by_cases h2 : (lookup rm.name R).isNone
      · have hne : n ≠ rm.name := by
          intro he
          rw [← he, hl] at h2
          simp at h2
        rcases hc : c rm.name with u | m
        · simpa [processReminders, h1, h2, hc] using hl
        · have : lookup n (dictInsert rm.name m R) = some h := by
            rw [lookup_dictInsert_ne _ _ hne]; exact hl
          simpa [processReminders, h1, h2, hc] using ih _ n h this
      · simpa [processReminders, h1, h2] using ih R n h hl

theorem proc_coverage (c : String → Except Unit Nat) (e : List String)
    (rems : List Reminder) (hok : ∀ s, ∃ m, c s = Except.ok m) :
    ∀ R : List (String × Nat), ∀ rem ∈ rems,
      rem.name ∈ e ∨ (lookup rem.name (processReminders c e rems R).REMINDERS).isSome := by
  induction rems with
  | nil => intro R rem h; simp at h
  | cons rm rest ih =>
    intro R rem hmem
    rcases List.mem_cons.mp hmem with he | htail
    · subst he
      by_cases h1 : rem.name ∈ e
      · exact Or.inl h1
      · right
        by_cases h2 : (lookup rem.name R).isNone
        · rcases hok rem.name with ⟨m, hc⟩
          have : lookup rem.name (dictInsert rem.name m R) = some m :=
            lookup_dictInsert_self _ _ _
          have := proc_lookup_mono c e rest _ rem.name m this
          simp [processReminders, h1, h2, hc, this]
        · rcases Option.ne_none_iff_exists.mp (by simpa using h2) with ⟨h, hl⟩
          have := proc_lookup_mono c e rest R rem.name h hl.symm
          simp [processReminders, h1, h2, this]
    · by_cases h1 : rm.name ∈ e
      · simpa [processReminders, h1] using ih R rem htail
      · by_cases h2 : (lookup rm.name R).isNone
        · rcases hok rm.name with ⟨m, hc⟩
          simpa [processReminders, h1, h2, hc] using ih (dictInsert rm.name m R) rem htail
        · simpa [processReminders, h1, h2] using ih R rem htail

theorem proc_inert (c : String → Except Unit Nat) (e : List String)
    (rems : List Reminder) :
    ∀ R : List (String × Nat),
      (∀ rem ∈ rems, rem.name ∈ e ∨ (lookup rem.name R).isSome) →
      (processReminders c e rems R).REMINDERS = R ∧
      (processReminders c e rems R).players_being_reminded = [] ∧
      (processReminders c e rems R).issued = [] ∧
      (processReminders c e rems R).failed = false ∧
      ∀ rem ∈ rems, rem.name ∉ e →
        rem.name ∈ (processReminders c e rems R).players_already_reminded := by
  induction rems with
  | nil => intro R _; simp [processReminders]
  | cons rm rest ih =>
    intro R hcov
    have htail : ∀ rem ∈ rest, rem.name ∈ e ∨ (lookup rem.name R).isSome :=
      fun rem h => hcov rem (List.mem_cons_of_mem _ h)
    by_cases h1 : rm.name ∈ e
    · rcases ih R htail with ⟨i1, i2, i3, i4, i5⟩
      refine ⟨by simpa [processReminders, h1] using i1,
        by simpa [processReminders, h1] using i2,
        by simpa [processReminders, h1] using i3,
        by simpa [processReminders, h1] using i4, ?_⟩
      intro rem hmem hne
      rcases List.mem_cons.mp hmem with he | htl
      · exact absurd (he ▸ h1) hne
      · simpa [processReminders, h1] using i5 rem htl hne
    · have h2 : ¬(lookup rm.name R).isNone := by
        rcases hcov rm (List.mem_cons_self _ _) with h | h
        · exact absurd h h1
        · simp [Option.isNone_iff_eq_none]
          rcases Option.isSome_iff_exists.mp h with ⟨v, hv⟩
          simp [hv]
      rcases ih R htail with ⟨i1, i2, i3, i4, i5⟩
      refine ⟨by simpa [processReminders, h1, h2] using i1,
        by simpa [processReminders, h1, h2] using i2,
        by simpa [processReminders, h1, h2] using i3,
        by simpa [processReminders, h1, h2] using i4, ?_⟩
      intro rem hmem hne
      rcases List.mem_cons.mp hmem with he | htl
      · subst he; simp [processReminders, h1, h2]
      · have := i5 rem htl hne
        simp [processReminders, h1, h2, this]

theorem proc_created_sub (c : String → Except Unit Nat) (e : List String)
    (rems : List Reminder) :
    ∀ (R : List (String × Nat)) (rm : Reminder),
      rm ∈ (processReminders c e rems R).players_being_reminded → rm ∈ rems := by
  induction rems with
  | nil => intro R rm h; simp [processReminders] at h
  | cons r rest ih =>
    intro R rm h
    by_cases h1 : r.name ∈ e
    · simp only [processReminders, h1, if_pos] at h
      exact List.mem_cons_of_mem _ (ih R rm h)
    · by_cases h2 : (lookup r.name R).isNone
      · rcases hc : c r.name with u | m
        · simp [processReminders, h1, h2, hc] at h
        · simp only [processReminders, h1, h2, hc, if_neg, not_false_iff, if_pos] at h
          rcases List.mem_cons.mp h with he | htl
          · exact he ▸ List.mem_cons_self _ _
          · exact List.mem_cons_of_mem _ (ih _ rm htl)
      · simp only [processReminders, h1, h2, if_neg, not_false_iff] at h
        exact List.mem_cons_of_mem _ (ih R rm h)

theorem proc_created_not_excluded (c : String → Except Unit Nat) (e : List String)
    (rems : List Reminder) :
    ∀ (R : List (String × Nat)) (rm : Reminder),
      rm ∈ (processReminders c e rems R).players_being_reminded → rm.name ∉ e := by
  induction rems with
  | nil => intro R rm h; simp [processReminders] at h
  | cons r rest ih =>
    intro R rm h
    by_cases h1 : r.name ∈ e
    · simp only [processReminders, h1, if_pos] at h
      exact ih R rm h
    · by_cases h2 : (lookup r.name R).isNone
      · rcases hc : c r.name with u | m
        · simp [processReminders, h1, h2, hc] at h
        · simp only [processReminders, h1, h2, hc, if_neg, not_false_iff, if_pos] at h
          rcases List.mem_cons.mp h with he | htl
          · exact he ▸ h1
          · exact ih _ rm htl
      · simp only [processReminders, h1, h2, if_neg, not_false_iff] at h
        exact ih R rm h

theorem proc_excluded (c : String → Except Unit Nat) (e : List String)
    (rems : List Reminder) (n : String) (hn : n ∈ e) :
    ∀ R : List (String × Nat),
      lookup n (processReminders c e rems R).REMINDERS = lookup n R ∧
      n ∉ (processReminders c e rems R).issued ∧
      (∀ rm ∈ (processReminders c e rems R).players_being_reminded, rm.name ≠ n) ∧
      (∀ o ∈ (processReminders c e rems R).outcomes,
        o.1 = n → o.2 = Outcome.skippedExcluded) := by
  induction rems with
  | nil => intro R; simp [processReminders]
  | cons rm rest ih =>
    intro R
    by_cases h1 : rm.name ∈ e
    · rcases ih R with ⟨i1, i2, i3, i4⟩
      refine ⟨by simpa [processReminders, h1] using i1,
        by simpa [processReminders, h1] using i2,
        by simpa [processReminders, h1] using i3, ?_⟩
      intro o hmem ho
      rcases List.mem_cons.mp (by simpa [processReminders, h1] using hmem) with he | htl
      · rw [he]
      · exact i4 o htl ho
    · have hne : rm.name ≠ n := fun he => h1 (he ▸ hn)
      by_cases h2 : (lookup rm.name R).isNone
      · have hne2 : ¬n = rm.name := fun h => hne h.symm
        rcases hc : c rm.name with u | m
        · refine ⟨by simp [processReminders, h1, h2, hc],
            by simp [processReminders, h1, h2, hc, hne2],
            by simp [processReminders, h1, h2, hc],
            by simp [processReminders, h1, h2, hc]⟩
        · rcases ih (dictInsert rm.name m R) with ⟨i1, i2, i3, i4⟩
          have hl : lookup n (dictInsert rm.name m R) = lookup n R :=
            lookup_dictInsert_ne _ _ (fun h : n = rm.name => hne h.symm)
          refine ⟨by simpa [processReminders, h1, h2, hc, hl] using i1, ?_, ?_, ?_⟩
          · intro h
            rcases List.mem_cons.mp (by simpa [processReminders, h1, h2, hc] using h)
              with he | htl
            · exact hne he.symm
            · exact i2 htl
          · intro r hmem
            rcases List.mem_cons.mp (by simpa [processReminders, h1, h2, hc] using hmem)
              with he | htl
            · rw [he]; exact hne
            · exact i3 r htl
          · intro o hmem ho
            rcases List.mem_cons.mp (by simpa [processReminders, h1, h2, hc] using hmem)
              with he | htl
            · rw [he] at ho ⊢; exact absurd ho hne
            · exact i4 o htl ho
      · rcases ih R with ⟨i1, i2, i3, i4⟩
        refine ⟨by simpa [processReminders, h1, h2] using i1, ?_, ?_, ?_⟩
        · simpa [processReminders, h1, h2] using i2
        · simpa [processReminders, h1, h2] using i3
        · intro o hmem ho
          rcases List.mem_cons.mp (by simpa [processReminders, h1, h2] using hmem)
            with he | htl
          · rw [he] at ho ⊢; exact absurd ho hne
          · exact i4 o htl ho

theorem build_reminders_names (PL : List (Person × SlackPerson)) :
    ∀ t : List (String × String),
      (build_reminders PL t).1.map Reminder.name = PL.map (fun pr => pr.1.name) := by
  induction PL with
  | nil => intro t; simp [build_reminders]
  | cons pr rest ih =>
    intro t
    rcases pr with ⟨debtor, person⟩
    simp [build_reminders, ih]

theorem ping_players_on (c : String → Except Unit Nat) (a : String) (ppl : List Person)
    (ros : List SlackPerson) (st : RegState) (ha : a ∈ TREASURERS) :
    ping_players c a "on" ppl ros st =
      ⟨⟨st.PING_EXCLUDED_LIST,
        (build_reminders (st.PING_LIST ++ (resolveDebtors (get_all_debtors ppl) ros).1)
          st.PING_TIMES_PER_PLAYER).2,
        st.PING_LIST ++ (resolveDebtors (get_all_debtors ppl) ros).1,
        (onProc c ppl ros st).REMINDERS⟩,
      (onProc c ppl ros st).players_being_reminded,
      (onProc c ppl ros st).players_already_reminded,
      (resolveDebtors (get_all_debtors ppl) ros).2,
      (onProc c ppl ros st).issued,
      (onProc c ppl ros st).outcomes,
      (onProc c ppl ros st).failed⟩ := by
  simp [ping_players, ha, onProc, onReminders]

theorem ping_players_off (c : String → Except Unit Nat) (a : String) (ppl : List Person)
    (ros : List SlackPerson) (st : RegState) (ha : a ∈ TREASURERS) :
    ping_players c a "off" ppl ros st = ⟨⟨[], [], [], []⟩, [], [], [], [], [], false⟩ := by
  simp [ping_players, ha]

theorem ping_players_denied (c : String → Except Unit Nat) (a t : String) (ppl : List Person)
    (ros : List SlackPerson) (st : RegState) (ha : a ∉ TREASURERS) :
    ping_players c a t ppl ros st = ⟨st, [], [], [], [], [], false⟩ := by
  simp [ping_players, ha]

theorem ping_players_other (c : String → Except Unit Nat) (a t : String) (ppl : List Person)
    (ros : List SlackPerson) (st : RegState) (ha : a ∈ TREASURERS)
    (h1 : t ≠ "on") (h2 : t ≠ "off") :
    ping_players c a t ppl ros st = ⟨st, [], [], [], [], [], false⟩ := by
  simp [ping_players, ha, h1, h2]

theorem ping_remove_players_REMINDERS (a tgt : String) (ros : List SlackPerson)
    (st : RegState) : (ping_remove_players a tgt ros st).1.REMINDERS = st.REMINDERS := by
  simp only [ping_remove_players]
  split <;> rfl

theorem ping_adjust_time_REMINDERS (a info : String) (ros : List SlackPerson)
    (st : RegState) : (ping_adjust_time a info ros st).1.REMINDERS = st.REMINDERS := by
  simp only [ping_adjust_time]
  split
  · split
    · split <;> rfl
    · rfl
  · rfl

theorem ping_add_players_REMINDERS (a tgt : String) (ros : List SlackPerson)
    (st : RegState) : (ping_add_players a tgt ros st).1.REMINDERS = st.REMINDERS := by
  simp only [ping_add_players]
  split <;> rfl

theorem applyOp_noDupKeys (op : Op) (st : RegState) (h : NoDupKeys st.REMINDERS) :
    NoDupKeys (applyOp st op).REMINDERS := by
  cases op with
  | ping c a t ppl ros =>
    by_cases ha : a ∈ TREASURERS
    · by_cases h1 : t = "on"
      · subst h1
        rw [applyOp, ping_players_on c a ppl ros st ha]
        exact proc_noDupKeys c _ _ _ h
      · by_cases h2 : t = "off"
        · subst h2
          rw [applyOp, ping_players_off c a ppl ros st ha]
          exact List.Pairwise.nil
        · rw [applyOp, ping_players_other c a t ppl ros st ha h1 h2]
          exact h
    · rw [applyOp, ping_players_denied c a t ppl ros st ha]
      exact h
  | remove a tgt ros =>
    rw [applyOp]
    rw [ping_remove_players_REMINDERS]
    exact h
  | adjust a info ros =>
    rw [applyOp]
    rw [ping_adjust_time_REMINDERS]
    exact h
  | add a tgt ros =>
    rw [applyOp]
    rw [ping_add_players_REMINDERS]
    exact h

theorem foldl_applyOp_noDupKeys (ops : List Op) :
    ∀ st : RegState, NoDupKeys st.REMINDERS →
      NoDupKeys (ops.foldl applyOp st).REMINDERS := by
  induction ops with
  | nil => intro st h; simpa using h
  | cons op rest ih =>
    intro st h
    simpa using ih (applyOp st op) (applyOp_noDupKeys op st h)

theorem toggle_on_twice_core (c : String → Except Unit Nat)
    (hok : ∀ s, ∃ m, c s = Except.ok m) (E : List String) (R0 : List (String × Nat))
    (t0 t1 : List (String × String)) (PL0 pairs : List (Person × SlackPerson)) :
    (processReminders c E (build_reminders ((PL0 ++ pairs) ++ pairs) t1).1
        (processReminders c E (build_reminders (PL0 ++ pairs) t0).1 R0).REMINDERS).players_being_reminded = [] ∧
    (processReminders c E (build_reminders ((PL0 ++ pairs) ++ pairs) t1).1
        (processReminders c E (build_reminders (PL0 ++ pairs) t0).1 R0).REMINDERS).issued = [] ∧
    ∀ rm ∈ (processReminders c E (build_reminders (PL0 ++ pairs) t0).1 R0).players_being_reminded,
      rm.name ∈ (processReminders c E (build_reminders ((PL0 ++ pairs) ++ pairs) t1).1
        (processReminders c E (build_reminders (PL0 ++ pairs) t0).1 R0).REMINDERS).players_already_reminded := by
  have names2to1 : ∀ n : String,
      n ∈ ((PL0 ++ pairs) ++ pairs).map (fun pr => pr.1.name) →
      n ∈ (PL0 ++ pairs).map (fun pr => pr.1.name) := by
    intro n hn
    rcases List.mem_map.mp hn with ⟨pr, hpr, he⟩
    rcases List.mem_append.mp hpr with h | h
    · exact he ▸ List.mem_map_of_mem _ h
    · exact he ▸ List.mem_map_of_mem _ (List.mem_append_right _ h)
  have hcov : ∀ rm ∈ (build_reminders ((PL0 ++ pairs) ++ pairs) t1).1,
      rm.name ∈ E ∨
      (lookup rm.name
        (processReminders c E (build_reminders (PL0 ++ pairs) t0).1 R0).REMINDERS).isSome := by
    intro rm hm
    have h1 : rm.name ∈ ((PL0 ++ pairs) ++ pairs).map (fun pr => pr.1.name) := by
      rw [← build_reminders_names ((PL0 ++ pairs) ++ pairs) t1]
      exact List.mem_map_of_mem _ hm
    have h2 : rm.name ∈ ((build_reminders (PL0 ++ pairs) t0).1).map Reminder.name := by
      rw [build_reminders_names (PL0 ++ pairs) t0]
      exact names2to1 _ h1
    rcases List.mem_map.mp h2 with ⟨rm1, hrm1, he1⟩
    rcases proc_coverage c E (build_reminders (PL0 ++ pairs) t0).1 hok R0 rm1 hrm1 with h | h
    · exact Or.inl (he1 ▸ h)
    · exact Or.inr (he1 ▸ h)
  rcases proc_inert c E (build_reminders ((PL0 ++ pairs) ++ pairs) t1).1 _ hcov with
    ⟨_, i2, i3, _, i5⟩
  refine ⟨i2, i3, ?_⟩
  intro rm hrm
  have hne : rm.name ∉ E :=
    proc_created_not_excluded c E (build_reminders (PL0 ++ pairs) t0).1 R0 rm hrm
  have hin1 : rm ∈ (build_reminders (PL0 ++ pairs) t0).1 :=
    proc_created_sub c E (build_reminders (PL0 ++ pairs) t0).1 R0 rm hrm
  have hname2 : rm.name ∈ ((build_reminders ((PL0 ++ pairs) ++ pairs) t1).1).map Reminder.name := by
    rw [build_reminders_names ((PL0 ++ pairs) ++ pairs) t1]
    have h1 : rm.name ∈ (PL0 ++ pairs).map (fun pr => pr.1.name) := by
      rw [← build_reminders_names (PL0 ++ pairs) t0]
      exact List.mem_map_of_mem _ hin1
    rcases List.mem_map.mp h1 with ⟨pr, hpr, he⟩
    exact he ▸ List.mem_map_of_mem _ (List.mem_append_left _ hpr)
  rcases List.mem_map.mp hname2 with ⟨rm2, hrm2, he2⟩
  have := i5 rm2 hrm2 (he2 ▸ hne)
  exact he2 ▸ this

/-- Claim C1: across every sequence of toggle-on invocations with any
interleaved exclusion or schedule-adjust operations, the `REMINDERS`
dict never holds two handles for the same name (its keys stay pairwise
distinct), and a toggle-on run registers a reminder for a name only when
no entry is present: an existing handle is never overwritten. -/
theorem spec_C1 :
    (∀ ops : List Op, NoDupKeys (runOps ops).REMINDERS) ∧
    (∀ (st : RegState) (c : String → Except Unit Nat) (a : String)
      (ppl : List Person) (ros : List SlackPerson) (n : String) (h : Nat),
      lookup n st.REMINDERS = some h →
      lookup n (ping_players c a "on" ppl ros st).state.REMINDERS = some h) := by
  constructor
  · intro ops
    exact foldl_applyOp_noDupKeys ops initState (by simp [initState, NoDupKeys])
  · intro st c a ppl ros n h hl
    by_cases ha : a ∈ TREASURERS
    · rw [ping_players_on c a ppl ros st ha]
      exact proc_lookup_mono c _ _ _ n h hl
    · rw [ping_players_denied c a "on" ppl ros st ha]
      exact hl

theorem spec_C1_witness :
    NoDupKeys (runOps [Op.ping (fun _ => Except.ok 1) "Louis Stewart" "on"
        [⟨"Alice", -20, 0, 0⟩] [⟨"Alice", "U1"⟩],
      Op.remove "Louis Stewart" "Ana" [⟨"Ana", "U2"⟩],
      Op.ping (fun _ => Except.ok 1) "Louis Stewart" "on"
        [⟨"Alice", -20, 0, 0⟩] [⟨"Alice", "U1"⟩]]).REMINDERS :=
  spec_C1.1 _

/-- Claim C2: toggling on twice with the same ledger and roster, and no
toggle-off in between, yields zero CREATED outcomes on the second call
(no `reminders_add` request is issued at all), and every debtor created
on the first call is reported as already reminded on the second. -/
theorem spec_C2 (c : String → Except Unit Nat) (hok : ∀ s, ∃ m, c s = Except.ok m)
    (actor : String) (ha : actor ∈ TREASURERS) (people : List Person)
    (roster : List SlackPerson) (st : RegState) :
    (ping_players c actor "on" people roster
        (ping_players c actor "on" people roster st).state).players_being_reminded = [] ∧
    (ping_players c actor "on" people roster
        (ping_players c actor "on" people roster st).state).issued = [] ∧
    ∀ rm ∈ (ping_players c actor "on" people roster st).players_being_reminded,
      rm.name ∈ (ping_players c actor "on" people roster
        (ping_players c actor "on" people roster st).state).players_already_reminded := by
  rw [ping_players_on c actor people roster st ha]
  dsimp only
  rw [ping_players_on c actor people roster _ ha]
  dsimp only [onProc, onReminders]
  exact toggle_on_twice_core c hok _ _ _ _ _ _

theorem spec_C2_witness :
    (ping_players (fun _ => Except.ok 1) "Louis Stewart" "on" [⟨"Alice", -20, 0, 0⟩]
        [⟨"Alice", "U1"⟩]
        (ping_players (fun _ => Except.ok 1) "Louis Stewart" "on" [⟨"Alice", -20, 0, 0⟩]
          [⟨"Alice", "U1"⟩] initState).state).players_being_reminded = [] ∧
    (ping_players (fun _ => Except.ok 1) "Louis Stewart" "on" [⟨"Alice", -20, 0, 0⟩]
        [⟨"Alice", "U1"⟩]
        (ping_players (fun _ => Except.ok 1) "Louis Stewart" "on" [⟨"Alice", -20, 0, 0⟩]
          [⟨"Alice", "U1"⟩] initState).state).issued = [] :=
  ⟨(spec_C2 (fun _ => Except.ok 1) (fun _ => ⟨1, rfl⟩) "Louis Stewart" (by decide)
      [⟨"Alice", -20, 0, 0⟩] [⟨"Alice", "U1"⟩] initState).1,
   (spec_C2 (fun _ => Except.ok 1) (fun _ => ⟨1, rfl⟩) "Louis Stewart" (by decide)
      [⟨"Alice", -20, 0, 0⟩] [⟨"Alice", "U1"⟩] initState).2.1⟩

/-- Claim C6: a toggle-off invocation (by a treasurer) clears the
active-reminder map, the per-person schedule overrides, the exclusion
set and the ping list in one step of the embedded semantics, and
afterwards `hasActive` is false for every name. -/
theorem spec_C6 (c : String → Except Unit Nat) (actor : String) (people : List Person)
    (roster : List SlackPerson) (st : RegState) (ha : actor ∈ TREASURERS) :
    (ping_players c actor "off" people roster st).state = ⟨[], [], [], []⟩ ∧
    ∀ name, hasActive (ping_players c actor "off" people roster st).state name = false := by
  rw [ping_players_off c actor people roster st ha]
  exact ⟨rfl, fun _ => rfl⟩

theorem spec_C6_witness :
    (ping_players (fun _ => Except.ok 1) "Louis Stewart" "off" [] []
        ⟨[], [], [], [("Alice", 3)]⟩).state = ⟨[], [], [], []⟩ ∧
    hasActive (ping_players (fun _ => Except.ok 1) "Louis Stewart" "off" [] []
        ⟨[], [], [], [("Alice", 3)]⟩).state "Alice" = false :=
  ⟨(spec_C6 (fun _ => Except.ok 1) "Louis Stewart" [] [] ⟨[], [], [], [("Alice", 3)]⟩
      (by decide)).1,
   (spec_C6 (fun _ => Except.ok 1) "Louis Stewart" [] [] ⟨[], [], [], [("Alice", 3)]⟩
      (by decide)).2 "Alice"⟩

/-- Claim C7: a name in the exclusion set at toggle-on time keeps its
`REMINDERS` entry unchanged (in particular no entry is added), has no
`reminders_add` request issued for it, never appears among the CREATED
reminders, and every outcome recorded for it is skipped-excluded —
whatever its debt status or previous activity. -/
theorem spec_C7 (c : String → Except Unit Nat) (actor : String) (people : List Person)
    (roster : List SlackPerson) (st : RegState) (name : String)
    (ha : actor ∈ TREASURERS) (hx : name ∈ st.PING_EXCLUDED_LIST) :
    lookup name (ping_players c actor "on" people roster st).state.REMINDERS =
      lookup name st.REMINDERS ∧
    name ∉ (ping_players c actor "on" people roster st).issued ∧
    (∀ rm ∈ (ping_players c actor "on" people roster st).players_being_reminded,
      rm.name ≠ name) ∧
    (∀ o ∈ (ping_players c actor "on" people roster st).outcomes,
      o.1 = name → o.2 = Outcome.skippedExcluded) := by
  rw [ping_players_on c actor people roster st ha]
  exact proc_excluded c st.PING_EXCLUDED_LIST (onReminders people roster st) name hx
    st.REMINDERS

theorem spec_C7_witness :
    lookup "Ana" (ping_players (fun _ => Except.ok 1) "Louis Stewart" "on"
        [⟨"Ana", -40, 0, 0⟩] [⟨"Ana", "U9"⟩] ⟨["Ana"], [], [], []⟩).state.REMINDERS =
      lookup "Ana" (⟨["Ana"], [], [], []⟩ : RegState).REMINDERS :=
  (spec_C7 (fun _ => Except.ok 1) "Louis Stewart" [⟨"Ana", -40, 0, 0⟩] [⟨"Ana", "U9"⟩]
    ⟨["Ana"], [], [], []⟩ "Ana" (by decide) (by decide)).1

/-- Claim C3 concerns failure of the external reminder-creation call.
The code (`main.py` lines 476-490) has no exception handling around
`reminders_add`: at this concrete input — treasurer toggle-on, debtors
Alice (−20) and Bob (−10) both resolvable, creation failing for Alice —
the embedded run aborts (`failed = true`), records no per-person
outcome, creates nothing, leaves both debtors unregistered, and Bob is
never processed; the claim instead requires a recorded failed-creation
outcome for Alice and continued processing of Bob. -/
theorem spec_C3_divergence :
    ("Louis Stewart" ∈ TREASURERS) ∧
    (ping_players (fun n => if n = "Alice" then Except.error () else Except.ok 7)
        "Louis Stewart" "on" [⟨"Alice", -20, 0, 0⟩, ⟨"Bob", -10, 0, 0⟩]
        [⟨"Alice", "U1"⟩, ⟨"Bob", "U2"⟩] initState).failed = true ∧
    (ping_players (fun n => if n = "Alice" then Except.error () else Except.ok 7)
        "Louis Stewart" "on" [⟨"Alice", -20, 0, 0⟩, ⟨"Bob", -10, 0, 0⟩]
        [⟨"Alice", "U1"⟩, ⟨"Bob", "U2"⟩] initState).players_being_reminded = [] ∧
    (ping_players (fun n => if n = "Alice" then Except.error () else Except.ok 7)
        "Louis Stewart" "on" [⟨"Alice", -20, 0, 0⟩, ⟨"Bob", -10, 0, 0⟩]
        [⟨"Alice", "U1"⟩, ⟨"Bob", "U2"⟩] initState).outcomes = [] ∧
    lookup "Alice" (ping_players (fun n => if n = "Alice" then Except.error () else Except.ok 7)
        "Louis Stewart" "on" [⟨"Alice", -20, 0, 0⟩, ⟨"Bob", -10, 0, 0⟩]
        [⟨"Alice", "U1"⟩, ⟨"Bob", "U2"⟩] initState).state.REMINDERS = none ∧
    lookup "Bob" (ping_players (fun n => if n = "Alice" then Except.error () else Except.ok 7)
        "Louis Stewart" "on" [⟨"Alice", -20, 0, 0⟩, ⟨"Bob", -10, 0, 0⟩]
        [⟨"Alice", "U1"⟩, ⟨"Bob", "U2"⟩] initState).state.REMINDERS = none ∧
    (ping_players (fun n => if n = "Alice" then Except.error () else Except.ok 7)
        "Louis Stewart" "on" [⟨"Alice", -20, 0, 0⟩, ⟨"Bob", -10, 0, 0⟩]
        [⟨"Alice", "U1"⟩, ⟨"Bob", "U2"⟩] initState).issued = ["Alice"] :=
  ⟨by decide, rfl, rfl, rfl, rfl, rfl, rfl⟩

/-- Claim C4 concerns the guards of `/ping_remove` and
`/ping_adjust_time`.  Both compare the actor's name with the whole
`TREASURERS` list using `==` (`main.py` lines 576 and 605), which is
always `False` in Python: even the treasurer "Louis Stewart" receives
the fixed denial message and no registry state is mutated, contradicting
the claim's administrator half. -/
theorem spec_C4_divergence :
    ("Louis Stewart" ∈ TREASURERS) ∧
    ping_remove_players "Louis Stewart" "Ana" [⟨"Ana", "U9"⟩] initState =
      (initState, denial_text) ∧
    ping_adjust_time "Louis Stewart" "Ana,next Tuesday at 10:00" [⟨"Ana", "U9"⟩] initState =
      (initState, Except.ok denial_text) :=
  ⟨by decide, rfl, rfl⟩

theorem peopleLoop_error (rows : List Row) :
    ∀ l : List Row, (∃ r ∈ l, process_details r.name rows = Except.error ()) →
      peopleLoop rows l = Except.error () := by
  intro l
  induction l with
  | nil => intro h; simp at h
  | cons r rest ih =>
    intro h
    rcases h with ⟨r0, hr0, he⟩
    rcases hp : process_details r.name rows with u | p
    · cases u
      simp [peopleLoop, hp]
    · rcases List.mem_cons.mp hr0 with he0 | htl
      · rw [he0] at he
        rw [he] at hp
        cases hp
      · have := ih ⟨r0, htl, he⟩
        simp [peopleLoop, hp, this]

/-- Claim C5 fails on the code: at this concrete ledger — Alice
well-formed, Bob's balance field malformed (`"abc"`), Carol well-formed,
plus the three footer rows dropped by `[:-3]` — the whole listing is
aborted with the propagated `ValueError` instead of skipping Bob's row
and continuing: Carol's row is individually parseable, yet no list of
people is produced. -/
theorem spec_C5_counterexample :
    get_people_data [⟨"Alice", "€1.00", "€0.00", "€0.00"⟩, ⟨"Bob", "abc", "€0.00", "€0.00"⟩,
        ⟨"Carol", "€2.00", "€0.00", "€0.00"⟩, ⟨"", "", "", ""⟩, ⟨"", "", "", ""⟩,
        ⟨"", "", "", ""⟩] = Except.error () ∧
    process_details "Carol" [⟨"Alice", "€1.00", "€0.00", "€0.00"⟩,
        ⟨"Bob", "abc", "€0.00", "€0.00"⟩, ⟨"Carol", "€2.00", "€0.00", "€0.00"⟩] =
      Except.ok ⟨"Carol", 2, 0, 0⟩ ∧
    normalize_currency "abc" = none := by
  refine ⟨rfl, ?_, rfl⟩
  have h : process_details "Carol" [⟨"Alice", "€1.00", "€0.00", "€0.00"⟩,
      ⟨"Bob", "abc", "€0.00", "€0.00"⟩, ⟨"Carol", "€2.00", "€0.00", "€0.00"⟩] =
      Except.ok ⟨"Carol",
        (1 : Rat) * ((natOfDigits ['2'] : Rat) + (natOfDigits ['0', '0'] : Rat) / (10 : Rat) ^ 2),
        (1 : Rat) * ((natOfDigits ['0'] : Rat) + (natOfDigits ['0', '0'] : Rat) / (10 : Rat) ^ 2),
        (1 : Rat) * ((natOfDigits ['0'] : Rat) + (natOfDigits ['0', '0'] : Rat) / (10 : Rat) ^ 2)⟩ :=
    rfl
  rw [h, show natOfDigits ['2'] = 2 from rfl, show natOfDigits ['0'] = 0 from rfl,
    show natOfDigits ['0', '0'] = 0 from rfl]
  norm_num

/-- Claim C5 amended: when the first ledger row matching some listed
name has malformed currency fields, the `ValueError` from `float`
propagates out of `get_people_data` and the whole listing is aborted —
the row is not skipped and no partial list of the remaining rows is
produced. -/
theorem spec_C5_amended (spreadsheet : List Row)
    (h : ∃ r ∈ spreadsheet.take (spreadsheet.length - 3),
      process_details r.name (spreadsheet.take (spreadsheet.length - 3)) =
        Except.error ()) :
    get_people_data spreadsheet = Except.error () :=
  peopleLoop_error _ _ h

theorem spec_C5_witness :
    get_people_data [⟨"Bob", "abc", "€1.00", "€1.00"⟩, ⟨"x", "", "", ""⟩, ⟨"y", "", "", ""⟩,
        ⟨"z", "", "", ""⟩] = Except.error () :=
  spec_C5_amended _ ⟨⟨"Bob", "abc", "€1.00", "€1.00"⟩, by decide, rfl⟩

theorem get_all_debtors_eq (people : List Person) :
    get_all_debtors people = people.filter (fun p => decide (p.current_balance < 0)) := by
  induction people with
  | nil => rfl
  | cons p rest ih =>
    by_cases h : p.current_balance < 0
    · simp [get_all_debtors, h, List.filter_cons, ih]
    · simp [get_all_debtors, h, List.filter_cons, ih]

theorem get_all_prepaid_eq (people : List Person) :
    get_all_prepaid people = people.filter (fun p => decide (p.current_balance > 0)) := by
  induction people with
  | nil => rfl
  | cons p rest ih =>
    by_cases h : p.current_balance > 0
    · simp [get_all_prepaid, h, List.filter_cons, ih]
    · simp [get_all_prepaid, h, List.filter_cons, ih]

/-- Claim C8: classification by strict sign of `current_balance` yields
debtors (< 0) and prepaid (> 0); the two output sequences are disjoint,
zero-balance people appear in neither, debtors plus prepaid plus the
zero-balance complement is a permutation of the full input, and both
outputs are sublists (order-preserving selections) of the input. -/
theorem spec_C8 (people : List Person) :
    (∀ p ∈ get_all_debtors people, p.current_balance < 0) ∧
    (∀ p ∈ get_all_prepaid people, 0 < p.current_balance) ∧
    (∀ p ∈ get_all_debtors people, p ∉ get_all_prepaid people) ∧
    (∀ p ∈ people, p.current_balance = 0 →
      p ∉ get_all_debtors people ∧ p ∉ get_all_prepaid people) ∧
    (get_all_debtors people ++ get_all_prepaid people ++
      people.filter (fun p => decide (p.current_balance = 0))).Perm people ∧
    (get_all_debtors people).Sublist people ∧
    (get_all_prepaid people).Sublist people := by
  have hmd : ∀ p, p ∈ get_all_debtors people ↔ p ∈ people ∧ p.current_balance < 0 := by
    intro p
    rw [get_all_debtors_eq]
    simp [List.mem_filter]
  have hmp : ∀ p, p ∈ get_all_prepaid people ↔ p ∈ people ∧ 0 < p.current_balance := by
    intro p
    rw [get_all_prepaid_eq]
    simp [List.mem_filter]
  refine ⟨fun p hp => ((hmd p).mp hp).2, fun p hp => ((hmp p).mp hp).2, ?_, ?_, ?_, ?_, ?_⟩
  · intro p hp hq
    exact absurd ((hmp p).mp hq).2 (not_lt_of_lt ((hmd p).mp hp).2)
  · intro p _ hz
    constructor
    · intro hq
      exact absurd ((hmd p).mp hq).2 (by rw [hz]; exact lt_irrefl 0)
    · intro hq
      exact absurd ((hmp p).mp hq).2 (by rw [hz]; exact lt_irrefl 0)
  · rw [List.perm_iff_count]
    intro a
    rw [List.count_append, List.count_append, get_all_debtors_eq, get_all_prepaid_eq]
    rcases lt_trichotomy a.current_balance 0 with h | h | h
    · have cD : List.count a (people.filter (fun p => decide (p.current_balance < 0))) =
          List.count a people := List.count_filter (by simp [h])
      have cP : List.count a (people.filter (fun p => decide (p.current_balance > 0))) = 0 := by
        rw [List.count_eq_zero]
        intro hmem
        rw [List.mem_filter] at hmem
        exact absurd (of_decide_eq_true hmem.2) (lt_asymm h)
      have cZ : List.count a (people.filter (fun p => decide (p.current_balance = 0))) = 0 := by
        rw [List.count_eq_zero]
        intro hmem
        rw [List.mem_filter] at hmem
        exact absurd (of_decide_eq_true hmem.2) (ne_of_lt h)
      rw [cD, cP, cZ]
      simp
    · have cD : List.count a (people.filter (fun p => decide (p.current_balance < 0))) = 0 := by
        rw [List.count_eq_zero]
        intro hmem
        rw [List.mem_filter] at hmem
        exact absurd (of_decide_eq_true hmem.2) (by rw [h]; exact lt_irrefl 0)
      have cP : List.count a (people.filter (fun p => decide (p.current_balance > 0))) = 0 := by
        rw [List.count_eq_zero]
        intro hmem
        rw [List.mem_filter] at hmem
        exact absurd (of_decide_eq_true hmem.2) (by rw [h]; exact lt_irrefl 0)
      have cZ : List.count a (people.filter (fun p => decide (p.current_balance = 0))) =
          List.count a people := List.count_filter (by simp [h])
      rw [cD, cP, cZ]
      simp
    · have cD : List.count a (people.filter (fun p => decide (p.current_balance < 0))) = 0 := by
        rw [List.count_eq_zero]
        intro hmem
        rw [List.mem_filter] at hmem
        exact absurd (of_decide_eq_true hmem.2) (lt_asymm h)
      have cP : List.count a (people.filter (fun p => decide (p.current_balance > 0))) =
          List.count a people := List.count_filter (by simp [h])
      have cZ : List.count a (people.filter (fun p => decide (p.current_balance = 0))) = 0 := by
        rw [List.count_eq_zero]
        intro hmem
        rw [List.mem_filter] at hmem
        exact absurd (of_decide_eq_true hmem.2) (ne_of_gt h)
      rw [cD, cP, cZ]
      simp
  · rw [get_all_debtors_eq]
    exact List.filter_sublist _
  · rw [get_all_prepaid_eq]
    exact List.filter_sublist _

theorem spec_C8_witness :
    (⟨"Alice", -20, 0, 0⟩ : Person) ∉
      get_all_prepaid [⟨"Alice", -20, 0, 0⟩, ⟨"Bob", 10, 0, 0⟩, ⟨"Carol", 0, 0, 0⟩] :=
  (spec_C8 [⟨"Alice", -20, 0, 0⟩, ⟨"Bob", 10, 0, 0⟩, ⟨"Carol", 0, 0, 0⟩]).2.2.1
    ⟨"Alice", -20, 0, 0⟩ (by decide)

/-- Claim C9: currency normalization maps `"€1,234.56"` to `1234.56`
and `"-€5.00"` to `-5`: the euro sign and thousands separators are
removed and the sign is preserved. -/
theorem spec_C9 :
    normalize_currency "€1,234.56" = some (1234.56 : Rat) ∧
    normalize_currency "-€5.00" = some (-5 : Rat) := by
  constructor
  · have h : normalize_currency "€1,234.56" =
        some ((1 : Rat) * ((natOfDigits ['1', '2', '3', '4'] : Rat) +
          (natOfDigits ['5', '6'] : Rat) / (10 : Rat) ^ 2)) := rfl
    rw [h, show natOfDigits ['1', '2', '3', '4'] = 1234 from rfl,
      show natOfDigits ['5', '6'] = 56 from rfl]
    norm_num
  · have h : normalize_currency "-€5.00" =
        some ((-1 : Rat) * ((natOfDigits ['5'] : Rat) +
          (natOfDigits ['0', '0'] : Rat) / (10 : Rat) ^ 2)) := rfl
    rw [h, show natOfDigits ['5'] = 5 from rfl, show natOfDigits ['0', '0'] = 0 from rfl]
    norm_num

/-- Claim C10: for a non-treasurer actor appearing in neither the
debtor nor the prepaid list, `/owe` always replies with the fixed
"owes no money" message; since the `hits` counter is initialized to zero
and never incremented, the "search went wrong" branch is unreachable for
every input. -/
theorem spec_C10 (user : String) (people : List Person)
    (h1 : user ∉ TREASURERS)
    (h2 : ∀ p ∈ get_all_debtors people, p.name ≠ user)
    (h3 : ∀ p ∈ get_all_prepaid people, p.name ≠ user) :
    (owe_response user people).text =
      "The user *" ++ user ++ "* owes " ++ TEAM ++ " *no* money." ∧
    ∀ (u : String) (ppl : List Person), (owe_response u ppl).error_branch = false := by
  constructor
  · have hd : (get_all_debtors people).filter (fun p => p.name == user) = [] := by
      rw [List.filter_eq_nil_iff]
      intro p hp
      simpa using h2 p hp
    have hp2 : (get_all_prepaid people).filter (fun p => p.name == user) = [] := by
      rw [List.filter_eq_nil_iff]
      intro p hp
      simpa using h3 p hp
    simp [owe_response, h1, hd, hp2]
  · intro u ppl
    by_cases hu : u ∈ TREASURERS
    · simp [owe_response, hu]
    · rcases hcase : (get_all_debtors ppl).filter (fun p => p.name == u) with _ | ⟨x, xs⟩
      · rcases hcase2 : (get_all_prepaid ppl).filter (fun p => p.name == u) with _ | ⟨y, ys⟩
        · simp [owe_response, hu, hcase, hcase2]
        · simp [owe_response, hu, hcase, hcase2]
      · simp [owe_response, hu, hcase]

theorem spec_C10_witness :
    (owe_response "Zed" [⟨"Alice", -20, 0, 0⟩]).text =
      "The user *" ++ "Zed" ++ "* owes " ++ TEAM ++ " *no* money." :=
  (spec_C10 "Zed" [⟨"Alice", -20, 0, 0⟩] (by decide) (by decide) (by decide)).1
